import Mathlib

/-!
Verification of the playlist formatter against its design document.

The repository's CLI driver (`src/main.rs`, `run_playlist_formatter_cli`) is
embedded directly from the source.  The `track`, `playlist` and `utils`
modules are declared in `main.rs` but their source is not part of the
checkout, so the parser, formatter and persistence policy are modelled from
the design document (each such definition's doc comment says so).
-/

deriving instance DecidableEq for Except

/-- ASCII whitespace test used by the model's trimming. -/
def isWS (c : Char) : Bool := c = ' ' || c = '\t' || c = '\r' || c = '\n'

/-- Trim whitespace from both ends of a character list. -/
def trimChars (l : List Char) : List Char :=
  List.rdropWhile isWS (List.dropWhile isWS l)

/-- Modelled from the spec: `parse_line` "trims the line"; string-level trim. -/
def strTrim (s : String) : String := ⟨trimChars s.data⟩

theorem trimChars_idem (l : List Char) : trimChars (trimChars l) = trimChars l := by
  unfold trimChars
  have h1 : List.dropWhile isWS (List.rdropWhile isWS (List.dropWhile isWS l)) =
      List.rdropWhile isWS (List.dropWhile isWS l) := by
    rw [List.dropWhile_eq_self_iff]
    intro hl
    have hpre := List.rdropWhile_prefix isWS (List.dropWhile isWS l)
    have hlen : 0 < (List.dropWhile isWS l).length :=
      lt_of_lt_of_le hl hpre.length_le
    have hget : (List.rdropWhile isWS (List.dropWhile isWS l)).get ⟨0, hl⟩ =
        (List.dropWhile isWS l).get ⟨0, hlen⟩ := by
      simpa [List.get_eq_getElem] using hpre.getElem hl
    rw [hget]
    exact List.dropWhile_get_zero_not isWS l hlen
  rw [h1, List.rdropWhile_idempotent]

theorem strTrim_idem (s : String) : strTrim (strTrim s) = strTrim s := by
  simp [strTrim, trimChars_idem]

/-- Formatting style, from `utils::FormattingStyle` (spec §3: closed set
`Basic | Numbered | Pretty`). -/
inductive FormattingStyle where
  | Basic
  | Numbered
  | Pretty
deriving DecidableEq

/-- Modelled from the spec (`track.rs` is missing): one playlist entry —
position assigned by parse order, display title, optional artist (empty string
when absent), and the raw line text kept for lossless round-trip. -/
structure Track where
  position : Nat
  title : String
  artist : String
  raw : String
deriving DecidableEq

/-- Modelled from the spec: the known non-track pattern of the raw format
(a header/separator line); the model treats lines starting with `#` as
headers. -/
def isNonTrackLine (s : String) : Bool := s.data.head? = some '#'

/-- Split a character list at the first occurrence of the field delimiter
`" - "` (the raw format's fixed delimiter, spec §4.1/§4.3). -/
def splitSep : List Char → Option (List Char × List Char)
  | ' ' :: '-' :: ' ' :: rest => some ([], rest)
  | c :: cs =>
      match splitSep cs with
      | some (a, b) => some (c :: a, b)
      | none => none
  | [] => none

/-- Modelled from the spec: build the Track for a non-skipped line — split
into artist/title at the fixed delimiter; an unparseable-but-non-empty line
yields a Track whose artist is empty and whose raw text is preserved
verbatim. -/
def mkTrack (raw : String) (position : Nat) : Track :=
  match splitSep (strTrim raw).data with
  | some (a, b) =>
      if strTrim ⟨b⟩ = "" then
        { position := position, title := strTrim raw, artist := "", raw := raw }
      else
        { position := position, title := strTrim ⟨b⟩, artist := strTrim ⟨a⟩, raw := raw }
  | none => { position := position, title := strTrim raw, artist := "", raw := raw }

/-- Modelled from the spec (`track.rs` is missing): trims the line; skips it
when the trimmed result is empty or matches the non-track pattern; otherwise
yields one Track. -/
def parse_line (raw : String) (position : Nat) : Option Track :=
  if strTrim raw = "" then none
  else if isNonTrackLine (strTrim raw) then none
  else some (mkTrack raw position)

/-- Modelled from the spec (`playlist.rs` is missing): feed each line to
`parse_line` and accumulate the `some` results in order; `n` is the number of
tracks accepted so far, so positions are 1-based and contiguous. -/
def parseLines : List String → Nat → List Track
  | [], _ => []
  | l :: ls, n =>
      match parse_line l (n + 1) with
      | some t => t :: parseLines ls (n + 1)
      | none => parseLines ls n

/-- Split file contents into lines at newline characters. -/
def splitLinesAux : List Char → List Char → List String
  | [], acc => [⟨acc.reverse⟩]
  | c :: cs, acc =>
      if c = '\n' then (⟨acc.reverse⟩ : String) :: splitLinesAux cs []
      else splitLinesAux cs (c :: acc)

/-- Split a file's full contents into its lines. -/
def splitLines (s : String) : List String := splitLinesAux s.data []

/-- Last path component of a file path. -/
def baseName (path : String) : String :=
  ⟨(path.data.reverse.takeWhile (fun c => !(c = '/'))).reverse⟩

/-- Directory part of a file path, up to and including the last `/`. -/
def dirName (path : String) : String :=
  ⟨(path.data.reverse.dropWhile (fun c => !(c = '/'))).reverse⟩

/-- File name without its extension. -/
def stemOf (name : String) : String :=
  let r := name.data.reverse.dropWhile (fun c => !(c = '.'))
  if r = [] then name else ⟨(r.drop 1).reverse⟩

/-- Modelled from the spec (`playlist.rs` is missing): the parsed result for
one input file — source path, ordered track sequence, and the source file
name for the info block. -/
structure Playlist where
  path : String
  name : String
  tracks : List Track
deriving DecidableEq

/-- Modelled from the spec: `Playlist::new` reads the file's contents, splits
them into lines, feeds each to `parse_line`, and accumulates the accepted
tracks in order (the model receives the contents the file held). -/
def Playlist.new (path : String) (contents : String) : Playlist :=
  { path := path, name := baseName path, tracks := parseLines (splitLines contents) 0 }

/-- Modelled from the spec (§4.3 `Basic`): one line per track, minimal
decoration — "Artist - Title", or the raw leftover text when artist/title
could not be separated. -/
def basicLine (t : Track) : String :=
  if t.artist = "" then t.raw else t.artist ++ " - " ++ t.title

/-- Right-align a string to the given column width by left-padding with
spaces. -/
def padLeft (s : String) (w : Nat) : String :=
  (⟨List.replicate (w - s.length) ' '⟩ : String) ++ s

/-- Modelled from the spec (§4.3 `Numbered`): Basic content prefixed with the
1-based position and a fixed-width separator, right-aligned to the width of
the track count when the playlist has at least 10 tracks. -/
def numberedLine (w : Nat) (t : Track) : String :=
  padLeft (toString t.position) w ++ ". " ++ basicLine t

/-- Column width used by the Numbered style: the digit width of the track
count when the playlist has ≥ 10 tracks, otherwise a single column. -/
def posWidth (p : Playlist) : Nat :=
  if 10 ≤ p.tracks.length then (toString p.tracks.length).length else 1

/-- Modelled from the spec (§4.3 `Pretty`): visual framing around the
numbered listing. -/
def prettyFrame : String := "------------------------"

/-- Modelled from the spec (§4.3): pure rendering of a Playlist under a
style, as an ordered sequence of text lines. -/
def render (p : Playlist) : FormattingStyle → List String
  | FormattingStyle.Basic => p.tracks.map basicLine
  | FormattingStyle.Numbered => p.tracks.map (numberedLine (posWidth p))
  | FormattingStyle.Pretty =>
      prettyFrame :: (p.tracks.map (numberedLine (posWidth p)) ++ [prettyFrame])

/-- Modelled from the spec (§4.3): the info block shown by `print_info` —
source file name, track count and file metadata; rendered separately from the
per-track listing. -/
def print_info (p : Playlist) : List String :=
  ["Playlist: " ++ p.name, "Tracks: " ++ toString p.tracks.length]

/-- The observable effect of `print_playlist`: the lines sent to the terminal
together with the playlist afterwards (rendering borrows the playlist
immutably). -/
def print_playlist (p : Playlist) (style : FormattingStyle) :
    List String × Playlist :=
  (render p style, p)

/-- Join rendered lines into the single text that a terminal print or a file
write produces. -/
def joinLines : List String → String
  | [] => ""
  | [x] => x
  | x :: y :: xs => x ++ "\n" ++ joinLines (y :: xs)

/-- The file system as the model sees it: an association list from paths to
file contents; the head is the most recent write. -/
abbrev FS := List (String × String)

/-- Look a path up in the modelled file system. -/
def lookupFile : FS → String → Option String
  | [], _ => none
  | (p, c) :: rest, q => if p = q then some c else lookupFile rest q

/-- Write contents at a path in the modelled file system. -/
def writeFile (fs : FS) (path contents : String) : FS := (path, contents) :: fs

/-- Persistence errors, from the spec's `PersistenceError` taxonomy (§4.4,
§7). -/
inductive PersistenceError where
  | AlreadyExists (path : String)
deriving DecidableEq

/-- Modelled from the spec (§4.4 decision table, this CLI variant has no
default-directory flag): an explicit path is used as given; with no path the
target is a name derived from the source file, placed alongside it. -/
def resolveTarget (p : Playlist) : Option String → String
  | some path => path
  | none => dirName p.path ++ stemOf (baseName p.path) ++ ".formatted.txt"

/-- Modelled from the spec (`playlist.rs` is missing): the text
`save_playlist_to_file` writes.  The call site (`src/main.rs:119-123`) passes
no formatting style, so the saved text is one fixed rendering of the
playlist; the model uses the numbered listing. -/
def saveContent (p : Playlist) : String :=
  joinLines (render p FormattingStyle.Numbered)

/-- Modelled from the spec (§4.4): resolve the target path, fail with
`AlreadyExists` when the target exists and the overwrite flag is not set, and
otherwise write the rendered text. -/
def save_playlist_to_file (fs : FS) (p : Playlist) (pathArg : Option String)
    (force : Bool) : Except PersistenceError FS :=
  let target := resolveTarget p pathArg
  if (lookupFile fs target).isSome && !force then
    Except.error (PersistenceError.AlreadyExists target)
  else
    Except.ok (writeFile fs target (saveContent p))

/-- The CLI argument struct from `src/main.rs` (the `log` field does not
reach the core and is omitted). -/
structure Args where
  file : String
  output : Option String
  force : Bool
  basic : Bool
  numbered : Bool
  save : Option (Option String)
deriving DecidableEq

/-- Errors `run_playlist_formatter_cli` can fail with. -/
inductive RunError where
  | EmptyInput
  | NotAFile (path : String)
  | Persistence (e : PersistenceError)
deriving DecidableEq

/-- Outcome of a successful run: the lines printed to the terminal, the file
system afterwards, and whether a save was performed. -/
structure RunResult where
  printed : List String
  fs : FS
  savePerformed : Bool
deriving DecidableEq

/-- Style selection from `src/main.rs:101-107`: Basic when `--basic`, else
Numbered when `--numbered`, else Pretty. -/
def styleOf (args : Args) : FormattingStyle :=
  if args.basic then FormattingStyle.Basic
  else if args.numbered then FormattingStyle.Numbered
  else FormattingStyle.Pretty

/-- The save branch of `src/main.rs:119-123`: `--save`'s inner value is
passed when `--save` is present; otherwise the positional output is passed
when present; otherwise no save happens.  The boolean records whether
`save_playlist_to_file` was called. -/
def saveStep (fs : FS) (p : Playlist) (args : Args) :
    Except PersistenceError (FS × Bool) :=
  match args.save with
  | some saveArg => (save_playlist_to_file fs p saveArg args.force).map (fun f => (f, true))
  | none =>
      match args.output with
      | some _ => (save_playlist_to_file fs p args.output args.force).map (fun f => (f, true))
      | none => Except.ok (fs, false)

/-- Embedding of `run_playlist_formatter_cli` (`src/main.rs:86-126`): trim
the file argument, reject an empty argument, reject a path that is not an
existing file, select the style, build the playlist, print the info block
for Pretty, print the rendered playlist, then run the save branch. -/
def run_playlist_formatter_cli (fs : FS) (args : Args) :
    Except RunError RunResult :=
  let input_file := strTrim args.file
  if input_file = "" then Except.error RunError.EmptyInput
  else
    match lookupFile fs input_file with
    | none => Except.error (RunError.NotAFile input_file)
    | some contents =>
        let style := styleOf args
        let formatter := Playlist.new input_file contents
        let infoLines := if style = FormattingStyle.Pretty then print_info formatter else []
        let printed := infoLines ++ (print_playlist formatter style).1
        match saveStep fs formatter args with
        | Except.error e => Except.error (RunError.Persistence e)
        | Except.ok (fs2, performed) =>
            Except.ok { printed := printed, fs := fs2, savePerformed := performed }

theorem mkTrack_position (raw : String) (p : Nat) : (mkTrack raw p).position = p := by
  unfold mkTrack
  split
  · split <;> rfl
  · rfl

theorem mkTrack_raw (raw : String) (p : Nat) : (mkTrack raw p).raw = raw := by
  unfold mkTrack
  split
  · split <;> rfl
  · rfl

theorem mkTrack_title_trim (raw : String) (p : Nat) (h : strTrim raw ≠ "") :
    strTrim (mkTrack raw p).title ≠ "" := by
  unfold mkTrack
  split
  · split
    · simpa [strTrim_idem] using h
    · next hb => simpa [strTrim_idem] using hb
  · simpa [strTrim_idem] using h

theorem parse_line_eq_some {raw : String} {p : Nat} {t : Track}
    (h : parse_line raw p = some t) : t = mkTrack raw p := by
  unfold parse_line at h
  split at h
  · cases h
  · split at h
    · cases h
    · exact (Option.some.inj h).symm

theorem parse_line_some_trim_ne {raw : String} {p : Nat} {t : Track}
    (h : parse_line raw p = some t) : strTrim raw ≠ "" := by
  unfold parse_line at h
  split at h
  · cases h
  · split at h
    · cases h
    · assumption

theorem parse_line_isSome (raw : String) (p q : Nat) :
    (parse_line raw p).isSome = (parse_line raw q).isSome := by
  unfold parse_line
  split
  · rfl
  · split <;> rfl

theorem parseLines_map_raw : ∀ (ls : List String) (n : Nat),
    (parseLines ls n).map Track.raw = ls.filter (fun l => (parse_line l 0).isSome) := by
  intro ls
  induction ls with
  | nil => intro n; rfl
  | cons l ls ih =>
      intro n
      simp only [parseLines]
      cases hp : parse_line l (n + 1) with
      | none =>
          have hs : (parse_line l 0).isSome = false := by
            rw [parse_line_isSome l 0 (n + 1), hp]; rfl
          simp [List.filter_cons, hs, ih n]
      | some t =>
          have hs : (parse_line l 0).isSome = true := by
            rw [parse_line_isSome l 0 (n + 1), hp]; rfl
          have hraw : t.raw = l := by
            rw [parse_line_eq_some hp]; exact mkTrack_raw l (n + 1)
          simp [List.filter_cons, hs, ih (n + 1), hraw]

theorem parseLines_get? : ∀ (ls : List String) (n i : Nat) (t : Track),
    (parseLines ls n).get? i = some t → t.position = n + i + 1 := by
  intro ls
  induction ls with
  | nil => intro n i t h; cases h
  | cons l ls ih =>
      intro n i t h
      simp only [parseLines] at h
      cases hp : parse_line l (n + 1) with
      | none =>
          rw [hp] at h
          exact ih n i t h
      | some t0 =>
          rw [hp] at h
          cases i with
          | zero =>
              have ht : t = t0 := by simpa using h.symm
              rw [ht, parse_line_eq_some hp, mkTrack_position]
          | succ j =>
              have := ih (n + 1) j t (by simpa using h)
              omega

theorem parseLines_title : ∀ (ls : List String) (n : Nat) (t : Track),
    t ∈ parseLines ls n → strTrim t.title ≠ "" := by
  intro ls
  induction ls with
  | nil => intro n t h; cases h
  | cons l ls ih =>
      intro n t h
      simp only [parseLines] at h
      cases hp : parse_line l (n + 1) with
      | none =>
          rw [hp] at h
          exact ih n t h
      | some t0 =>
          rw [hp] at h
          cases List.mem_cons.mp h with
          | inl he =>
              rw [he, parse_line_eq_some hp]
              exact mkTrack_title_trim l (n + 1) (parse_line_some_trim_ne hp)
          | inr hm => exact ih (n + 1) t hm

/-- Claim C3: `parse_line` trims the line and skips it exactly when the
trimmed result is empty or matches the non-track pattern; every other line
yields a Track, an unparseable one with empty artist and the raw text
preserved verbatim, so no line past the filter is silently lost. -/
theorem C3_parse_line_total (raw : String) (position : Nat) :
    ((strTrim raw = "" ∨ isNonTrackLine (strTrim raw) = true) →
      parse_line raw position = none) ∧
    (strTrim raw ≠ "" → isNonTrackLine (strTrim raw) = false →
      ∃ t, parse_line raw position = some t ∧ t.raw = raw ∧
        (splitSep (strTrim raw).data = none →
          t.artist = "" ∧ t.title = strTrim raw)) := by
  constructor
  · intro h
    rcases h with h | h <;> simp [parse_line, h]
  · intro h1 h2
    refine ⟨mkTrack raw position, by simp [parse_line, h1, h2], mkTrack_raw raw position, ?_⟩
    intro hs
    simp [mkTrack, hs]

/-- Witness for C3 at concrete inputs: a header line is skipped, a plain
unparseable line yields a Track. -/
theorem C3_parse_line_total_witness :
    parse_line "# header" 1 = none ∧
    ∃ t, parse_line "plain line" 2 = some t ∧ t.raw = "plain line" ∧
      (splitSep (strTrim "plain line").data = none →
        t.artist = "" ∧ t.title = strTrim "plain line") :=
  ⟨(C3_parse_line_total "# header" 1).1 (Or.inr (by decide)),
   (C3_parse_line_total "plain line" 2).2 (by decide) (by decide)⟩

/-- Claim C4: a parsed Playlist's positions are strictly increasing,
contiguous and 1-based; titles are never empty after trimming; and the raw
texts of the tracks are exactly the accepted input lines in input order,
so nothing is reordered, deduplicated or filtered by content equality. -/
theorem C4_playlist_invariants (path contents : String) :
    (∀ (i : Nat) (h : i < (Playlist.new path contents).tracks.length),
        ((Playlist.new path contents).tracks.get ⟨i, h⟩).position = i + 1) ∧
    (∀ t ∈ (Playlist.new path contents).tracks, strTrim t.title ≠ "") ∧
    ((Playlist.new path contents).tracks.map Track.raw =
      (splitLines contents).filter (fun l => (parse_line l 0).isSome)) := by
  refine ⟨?_, ?_, parseLines_map_raw (splitLines contents) 0⟩
  · intro i h
    have hp := parseLines_get? (splitLines contents) 0 i
      ((Playlist.new path contents).tracks.get ⟨i, h⟩) (List.get?_eq_get h)
    simpa using hp
  · intro t ht
    exact parseLines_title (splitLines contents) 0 t ht

/-- Witness for C4 at a concrete input with a blank line between two
tracks. -/
theorem C4_playlist_invariants_witness :
    ((Playlist.new "p" "A - B\n\nC - D").tracks.get ⟨1, by decide⟩).position = 2 ∧
    strTrim (Track.mk 2 "D" "C" "C - D").title ≠ "" ∧
    (Playlist.new "p" "A - B\n\nC - D").tracks.map Track.raw = ["A - B", "C - D"] :=
  ⟨(C4_playlist_invariants "p" "A - B\n\nC - D").1 1 (by decide),
   (C4_playlist_invariants "p" "A - B\n\nC - D").2.1 (Track.mk 2 "D" "C" "C - D") (by decide),
   (C4_playlist_invariants "p" "A - B\n\nC - D").2.2⟩

/-- Claim C9: rendering is deterministic and idempotent — the playlist is
unchanged by `print_playlist`, and rendering the playlist it returns again
under the same style yields byte-identical lines. -/
theorem C9_render_pure (p : Playlist) (style : FormattingStyle) :
    (print_playlist p style).2 = p ∧
    (print_playlist p style).1 =
      (print_playlist (print_playlist p style).2 style).1 :=
  ⟨rfl, rfl⟩

/-- Claim C2: a save attempt whose resolved target exists, with the
overwrite flag unset, fails with `AlreadyExists` naming that target and
returns no written file system, so the pre-existing contents stay
untouched. -/
theorem C2_no_overwrite (fs : FS) (p : Playlist) (pathArg : Option String)
    (c : String) (h : lookupFile fs (resolveTarget p pathArg) = some c) :
    save_playlist_to_file fs p pathArg false =
      Except.error (PersistenceError.AlreadyExists (resolveTarget p pathArg)) ∧
    ∀ fs2, save_playlist_to_file fs p pathArg false ≠ Except.ok fs2 := by
  have hs : (lookupFile fs (resolveTarget p pathArg)).isSome = true := by
    rw [h]; rfl
  constructor
  · simp [save_playlist_to_file, hs]
  · intro fs2 hcon
    simp [save_playlist_to_file, hs] at hcon

/-- Witness for C2: saving onto an existing `out` without force fails and
names `out`. -/
theorem C2_no_overwrite_witness :
    save_playlist_to_file [("out", "old")] (Playlist.new "f" "A - B") (some "out") false =
      Except.error (PersistenceError.AlreadyExists "out") :=
  (C2_no_overwrite [("out", "old")] (Playlist.new "f" "A - B") (some "out") "old" (by decide)).1

/-- Claim C7: an empty/blank file argument, or a path that is not an
existing file, makes the run fail before any playlist is built — the error
is produced whatever the rest of the file system and arguments hold. -/
theorem C7_input_validation (fs : FS) (args : Args) :
    (strTrim args.file = "" →
      run_playlist_formatter_cli fs args = Except.error RunError.EmptyInput) ∧
    (strTrim args.file ≠ "" → lookupFile fs (strTrim args.file) = none →
      run_playlist_formatter_cli fs args =
        Except.error (RunError.NotAFile (strTrim args.file))) := by
  constructor
  · intro h
    simp [run_playlist_formatter_cli, h]
  · intro h1 h2
    simp [run_playlist_formatter_cli, h1, h2]

/-- Witness for C7: a blank path and a missing path each fail. -/
theorem C7_input_validation_witness :
    run_playlist_formatter_cli [] (Args.mk "  " none false false false none) =
      Except.error RunError.EmptyInput ∧
    run_playlist_formatter_cli [] (Args.mk "ghost.txt" none false false false none) =
      Except.error (RunError.NotAFile "ghost.txt") :=
  ⟨(C7_input_validation [] (Args.mk "  " none false false false none)).1 (by decide),
   by
    have := (C7_input_validation []
      (Args.mk "ghost.txt" none false false false none)).2 (by decide) (by decide)
    simpa using this⟩

/-- Project a run outcome onto the resulting file system, keeping the
error. -/
def exceptFs (r : Except RunError RunResult) : Except RunError FS :=
  r.map RunResult.fs

/-- Claim C5: with the flags mutually exclusive (as the argument parser
guarantees), the style is Basic exactly when `--basic` is set, Numbered
exactly when `--numbered` is set, Pretty exactly when neither is; and a
successful run prints the info block before the listing only when the style
is Pretty. -/
theorem C5_style_selection (fs : FS) (args : Args)
    (hmx : ¬(args.basic = true ∧ args.numbered = true)) :
    ((styleOf args = FormattingStyle.Basic ↔ args.basic = true) ∧
     (styleOf args = FormattingStyle.Numbered ↔ args.numbered = true) ∧
     (styleOf args = FormattingStyle.Pretty ↔
       (args.basic = false ∧ args.numbered = false))) ∧
    (∀ contents res, lookupFile fs (strTrim args.file) = some contents →
      run_playlist_formatter_cli fs args = Except.ok res →
      res.printed =
        (if styleOf args = FormattingStyle.Pretty
         then print_info (Playlist.new (strTrim args.file) contents)
         else []) ++
        render (Playlist.new (strTrim args.file) contents) (styleOf args)) := by
  constructor
  · cases hb : args.basic <;> cases hn : args.numbered <;>
      simp [styleOf, hb, hn] at hmx ⊢
  · intro contents res hc hr
    by_cases hemp : strTrim args.file = ""
    · simp [run_playlist_formatter_cli, hemp] at hr
    · simp only [run_playlist_formatter_cli, if_neg hemp, hc] at hr
      cases hs : saveStep fs (Playlist.new (strTrim args.file) contents) args with
      | error e => rw [hs] at hr; cases hr
      | ok r =>
          obtain ⟨fs2, perf⟩ := r
          rw [hs] at hr
          simp only [] at hr
          cases hr
          simp [print_playlist]

/-- Witness for C5: with `--basic` set the style is Basic and the printed
lines are the Basic render with no info block. -/
theorem C5_style_selection_witness :
    (styleOf (Args.mk "f.txt" none false true false none) = FormattingStyle.Basic ↔
      (Args.mk "f.txt" none false true false none).basic = true) ∧
    (RunResult.mk ["A - B"] [("f.txt", "A - B")] false).printed =
      (if styleOf (Args.mk "f.txt" none false true false none) = FormattingStyle.Pretty
       then print_info (Playlist.new (strTrim "f.txt") "A - B")
       else []) ++
      render (Playlist.new (strTrim "f.txt") "A - B")
        (styleOf (Args.mk "f.txt" none false true false none)) :=
  ⟨(C5_style_selection [("f.txt", "A - B")] (Args.mk "f.txt" none false true false none)
      (by decide)).1.1,
   (C5_style_selection [("f.txt", "A - B")] (Args.mk "f.txt" none false true false none)
      (by decide)).2 "A - B" (RunResult.mk ["A - B"] [("f.txt", "A - B")] false)
      (by decide) (by decide)⟩

theorem saveStep_performed (fs : FS) (p : Playlist) (args : Args) (r : FS × Bool)
    (h : saveStep fs p args = Except.ok r) :
    (r.2 = true ↔ (args.save ≠ none ∨ args.output ≠ none)) ∧
    (r.2 = false → r.1 = fs) := by
  cases hsv : args.save with
  | some sa =>
      simp only [saveStep, hsv] at h
      cases hw : save_playlist_to_file fs p sa args.force with
      | error e => rw [hw] at h; cases h
      | ok f0 =>
          rw [hw] at h
          simp only [Except.map] at h
          cases h
          simp [hsv]
  | none =>
      cases ho : args.output with
      | some o =>
          simp only [saveStep, hsv, ho] at h
          cases hw : save_playlist_to_file fs p (some o) args.force with
          | error e => rw [hw] at h; cases h
          | ok f0 =>
              rw [hw] at h
              simp only [Except.map] at h
              cases h
              simp [hsv, ho]
      | none =>
          simp only [saveStep, hsv, ho] at h
          cases h
          simp [hsv, ho]

/-- Claim C6: on every successful run a save was performed exactly when the
save option or the positional output path was given; with neither, the file
system is left untouched. -/
theorem C6_save_outcome (fs : FS) (args : Args) (res : RunResult)
    (h : run_playlist_formatter_cli fs args = Except.ok res) :
    (res.savePerformed = true ↔ (args.save ≠ none ∨ args.output ≠ none)) ∧
    (res.savePerformed = false → res.fs = fs) := by
  by_cases hemp : strTrim args.file = ""
  · simp [run_playlist_formatter_cli, hemp] at h
  · cases hc : lookupFile fs (strTrim args.file) with
    | none => simp [run_playlist_formatter_cli, hemp, hc] at h
    | some contents =>
        simp only [run_playlist_formatter_cli, if_neg hemp, hc] at h
        cases hs : saveStep fs (Playlist.new (strTrim args.file) contents) args with
        | error e => rw [hs] at h; cases h
        | ok r =>
            obtain ⟨fs2, perf⟩ := r
            rw [hs] at h
            simp only [] at h
            cases h
            simpa using saveStep_performed fs (Playlist.new (strTrim args.file) contents)
              args (fs2, perf) hs

/-- Witness for C6: a run with no output and no save leaves the file system
unchanged and reports no save. -/
theorem C6_save_outcome_witness :
    ((RunResult.mk ["A - B"] [("f.txt", "A - B")] false).savePerformed = true ↔
      ((Args.mk "f.txt" none false true false none).save ≠ none ∨
       (Args.mk "f.txt" none false true false none).output ≠ none)) ∧
    ((RunResult.mk ["A - B"] [("f.txt", "A - B")] false).savePerformed = false →
      (RunResult.mk ["A - B"] [("f.txt", "A - B")] false).fs = [("f.txt", "A - B")]) :=
  C6_save_outcome [("f.txt", "A - B")] (Args.mk "f.txt" none false true false none)
    (RunResult.mk ["A - B"] [("f.txt", "A - B")] false) (by decide)

/-- Counterexample to claim C1 as stated: an invocation choosing the Basic
style that saves to `out.txt` prints the Basic line `A - B` but writes the
fixed save rendering `1. A - B`, so the file text is not byte-identical to
what was printed for the chosen style (the call site passes no style to
`save_playlist_to_file`). -/
theorem C1_counterexample :
    run_playlist_formatter_cli [("f.txt", "A - B")]
      (Args.mk "f.txt" none false true false (some (some "out.txt"))) =
      Except.ok (RunResult.mk ["A - B"] [("out.txt", "1. A - B"), ("f.txt", "A - B")] true) ∧
    lookupFile [("out.txt", "1. A - B"), ("f.txt", "A - B")] "out.txt" =
      some "1. A - B" ∧
    ("1. A - B" : String) ≠ joinLines ["A - B"] ∧
    run_playlist_formatter_cli [("f.txt", "A - B")]
      (Args.mk "f.txt" none false false true (some (some "out.txt"))) =
      Except.ok (RunResult.mk ["1. A - B"] [("out.txt", "1. A - B"), ("f.txt", "A - B")] true) ∧
    joinLines ["A - B"] ≠ joinLines ["1. A - B"] :=
  ⟨by decide, by decide, by decide, by decide, by decide⟩

/-- Claim C1 (amended): the text written by a save is one fixed rendering of
the playlist, independent of the chosen formatting style — the resulting
file system (and any persistence error) of a run does not depend on the
style flags, only the terminal text does. -/
theorem C1_saved_text_style_independent (fs : FS) (f : String) (o : Option String)
    (fo b1 n1 b2 n2 : Bool) (s : Option (Option String)) :
    exceptFs (run_playlist_formatter_cli fs (Args.mk f o fo b1 n1 s)) =
      exceptFs (run_playlist_formatter_cli fs (Args.mk f o fo b2 n2 s)) := by
  by_cases hemp : strTrim f = ""
  · simp [run_playlist_formatter_cli, hemp]
  · cases hc : lookupFile fs (strTrim f) with
    | none => simp [run_playlist_formatter_cli, if_neg hemp, hc]
    | some contents =>
        simp only [run_playlist_formatter_cli, if_neg hemp, hc]
        have hss : saveStep fs (Playlist.new (strTrim f) contents)
            (Args.mk f o fo b2 n2 s) =
            saveStep fs (Playlist.new (strTrim f) contents) (Args.mk f o fo b1 n1 s) := rfl
        rw [hss]
        cases hs : saveStep fs (Playlist.new (strTrim f) contents)
            (Args.mk f o fo b1 n1 s) with
        | error e => simp [exceptFs]
        | ok r =>
            obtain ⟨fs2, perf⟩ := r
            simp [exceptFs, Except.map]

/-- Claim C10: when the save option is present its value is what reaches
`save_playlist_to_file` and the positional output path is ignored entirely;
the positional output path is consulted only when the save option is
absent. -/
theorem C10_save_option_precedence (fs : FS) (args : Args) :
    (∀ sa, args.save = some sa →
      (∀ o1 o2 : Option String,
        run_playlist_formatter_cli fs (Args.mk args.file o1 args.force args.basic
          args.numbered args.save) =
        run_playlist_formatter_cli fs (Args.mk args.file o2 args.force args.basic
          args.numbered args.save)) ∧
      (∀ contents, strTrim args.file ≠ "" →
        lookupFile fs (strTrim args.file) = some contents →
        exceptFs (run_playlist_formatter_cli fs args) =
          (save_playlist_to_file fs (Playlist.new (strTrim args.file) contents) sa
            args.force).mapError RunError.Persistence)) ∧
    (args.save = none → ∀ o contents, args.output = some o →
      strTrim args.file ≠ "" →
      lookupFile fs (strTrim args.file) = some contents →
      exceptFs (run_playlist_formatter_cli fs args) =
        (save_playlist_to_file fs (Playlist.new (strTrim args.file) contents) (some o)
          args.force).mapError RunError.Persistence) := by
  constructor
  · intro sa hsv
    constructor
    · intro o1 o2
      by_cases hemp : strTrim args.file = ""
      · simp [run_playlist_formatter_cli, hemp]
      · cases hc : lookupFile fs (strTrim args.file) with
        | none => simp [run_playlist_formatter_cli, if_neg hemp, hc]
        | some contents =>
            simp [run_playlist_formatter_cli, if_neg hemp, hc, saveStep, hsv, styleOf]
    · intro contents hemp hc
      simp only [run_playlist_formatter_cli, if_neg hemp, hc, saveStep, hsv]
      cases hw : save_playlist_to_file fs (Playlist.new (strTrim args.file) contents)
          sa args.force with
      | error e => simp [hw, exceptFs, Except.map, Except.mapError]
      | ok f0 => simp [hw, exceptFs, Except.map, Except.mapError]
  · intro hsv o contents ho hemp hc
    simp only [run_playlist_formatter_cli, if_neg hemp, hc, saveStep, hsv, ho]
    cases hw : save_playlist_to_file fs (Playlist.new (strTrim args.file) contents)
        (some o) args.force with
    | error e => simp [hw, exceptFs, Except.map, Except.mapError]
    | ok f0 => simp [hw, exceptFs, Except.map, Except.mapError]

/-- Witness for C10: with `--save out.txt` given, changing the positional
output path does not change the run at all. -/
theorem C10_save_option_precedence_witness :
    run_playlist_formatter_cli [("f.txt", "A - B")]
      (Args.mk "f.txt" (some "ignored.txt") false false false (some (some "out.txt"))) =
    run_playlist_formatter_cli [("f.txt", "A - B")]
      (Args.mk "f.txt" none false false false (some (some "out.txt"))) :=
  ((C10_save_option_precedence [("f.txt", "A - B")]
      (Args.mk "f.txt" (some "ignored.txt") false false false
        (some (some "out.txt")))).1 (some "out.txt") (by decide)).1
    (some "ignored.txt") none

/-- Claim C8: the Numbered rendering has exactly one line per track; its
`i`-th line is the 1-based position `i + 1` (so the prefixes are distinct and
ascending), right-aligned to the playlist's column width — the digit width of
the track count when there are at least 10 tracks — followed by the
fixed-width separator and exactly the Basic line of the same track. -/
theorem C8_numbered_render (path contents : String) :
    (render (Playlist.new path contents) FormattingStyle.Numbered).length =
      (Playlist.new path contents).tracks.length ∧
    (render (Playlist.new path contents) FormattingStyle.Basic).length =
      (Playlist.new path contents).tracks.length ∧
    ∀ (i : Nat)
      (h1 : i < (render (Playlist.new path contents) FormattingStyle.Numbered).length)
      (h2 : i < (render (Playlist.new path contents) FormattingStyle.Basic).length),
      (render (Playlist.new path contents) FormattingStyle.Numbered).get ⟨i, h1⟩ =
        padLeft (toString (i + 1)) (posWidth (Playlist.new path contents)) ++ ". " ++
          (render (Playlist.new path contents) FormattingStyle.Basic).get ⟨i, h2⟩ := by
  refine ⟨by simp [render], by simp [render], ?_⟩
  intro i h1 h2
  have hi : i < (Playlist.new path contents).tracks.length := by
    simpa [render] using h1
  have hpos : ((Playlist.new path contents).tracks.get ⟨i, hi⟩).position = i + 1 := by
    simpa using parseLines_get? (splitLines contents) 0 i
      ((Playlist.new path contents).tracks.get ⟨i, hi⟩) (List.get?_eq_get hi)
  simp only [List.get_eq_getElem] at hpos
  simp [render, List.get_eq_getElem, List.getElem_map, numberedLine, hpos]

/-- Witness for C8 at a concrete two-track playlist and index 1. -/
theorem C8_numbered_render_witness :
    (render (Playlist.new "p" "A - B\nC - D") FormattingStyle.Numbered).get ⟨1, by decide⟩ =
      padLeft (toString 2) (posWidth (Playlist.new "p" "A - B\nC - D")) ++ ". " ++
        (render (Playlist.new "p" "A - B\nC - D") FormattingStyle.Basic).get ⟨1, by decide⟩ :=
  (C8_numbered_render "p" "A - B\nC - D").2.2 1 (by decide) (by decide)
